import Mathlib

/-!
# Verification of the GCP Weather ETL script (`main.py`)

A shallow embedding of the two source files of the repository into Lean 4.

* Python JSON values are modelled by the inductive type `JVal`; Python `dict`s
  (which preserve insertion order and have unique keys) are modelled as
  association lists, with `dictGet` for subscript reads and `dictSet` for
  subscript assignment (overwrite-in-place-or-append, exactly the CPython
  semantics on ordered dicts).
* A pandas `DataFrame` is modelled row-wise: a list of rows, each row an
  association list from column name to value (a column missing from a row
  corresponds to a NaN cell after the pandas column union).
* Fallible Python code (subscript `KeyError` / `IndexError`, raising HTTP
  calls, load-job failures) is modelled with `Option` / `Except`.
* External effects (HTTP fetches, BigQuery load jobs) are modelled by an
  environment `Env` of oracles; in-place mutation of arguments is modelled by
  explicitly returning the post-state of the mutated argument.
-/

/-- A JSON value as produced by the Python `json` / `requests` parsing.
Numbers that appear in the claims are integers, so the numeric scalar is `Int`. -/
inductive JVal where
  | s (v : String)
  | i (v : Int)
  | b (v : Bool)
  | null
  | obj (fields : List (String × JVal))
  | arr (items : List JVal)

/-- A Python dict with string keys / a single DataFrame row
(column name to cell value). -/
abbrev Row := List (String × JVal)

/-- A pandas DataFrame, modelled as its list of rows. -/
abbrev DataFrame := List Row

/-- Python `d[k]` read on a dict: the value bound to `k`
(`none` models a `KeyError`). -/
def dictGet (d : Row) (k : String) : Option JVal :=
  match d with
  | [] => none
  | kv :: rest => if kv.1 = k then some kv.2 else dictGet rest k

/-- Python `d[k] = v` on an (insertion-ordered) dict: overwrite the binding in
place when `k` is already a key, otherwise append the new binding at the end. -/
def dictSet (d : Row) (k : String) (v : JVal) : Row :=
  if (d.map Prod.fst).contains k then
    d.map (fun kv => if kv.1 = k then (k, v) else kv)
  else d ++ [(k, v)]

/-- Python `isinstance(value, dict)` + `.items()`:
the field list of an object value. -/
def asObjFields : JVal → Option Row
  | .obj fields => some fields
  | _ => none

/-- Python list coercion: the item list of an array value. -/
def asArrItems : JVal → Option (List JVal)
  | .arr items => some items
  | _ => none

/-- The flattening loop of `transform_current_weather_data`
(`main.py` lines 129-135): for each top-level key, a dict value contributes one
entry `f"{key}_{sub_key}"` per inner pair, any other value is copied under its
own key; entries are written into an initially empty dict in iteration order. -/
def flattened_data_loop (data_dict : Row) : Row :=
  data_dict.foldl
    (fun flattened kv =>
      match kv.2 with
      | .obj fields =>
          fields.foldl (fun a sub => dictSet a (kv.1 ++ "_" ++ sub.1) sub.2) flattened
      | v => dictSet flattened kv.1 v)
    []

/-- The flattening loop of `convert_weather_api_dict_to_dataframe`
(`main.py` lines 157-163); textually the same algorithm as
`flattened_data_loop`, kept separate because the source duplicates it. -/
def extracted_data_loop (data_dict : Row) : Row :=
  data_dict.foldl
    (fun extracted kv =>
      match kv.2 with
      | .obj fields =>
          fields.foldl (fun a sub => dictSet a (kv.1 ++ "_" ++ sub.1) sub.2) extracted
      | v => dictSet extracted kv.1 v)
    []

/-- Translation of `convert_weather_api_dict_to_dataframe` (`main.py` lines
146-165): flatten one nested dict and wrap it as a single-row DataFrame. -/
def convert_weather_api_dict_to_dataframe (data_dict : Row) : DataFrame :=
  [extracted_data_loop data_dict]

/-- Zero-padded two-digit decimal rendering. -/
def pad2 (n : Nat) : String :=
  if n < 10 then "0" ++ toString n else toString n

/-- Zero-padded four-digit decimal rendering (`%Y`). -/
def pad4 (n : Nat) : String :=
  if n < 10 then "000" ++ toString n
  else if n < 100 then "00" ++ toString n
  else if n < 1000 then "0" ++ toString n
  else toString n

/-- Proleptic-Gregorian civil date from a count of days since 1970-01-01
(the `civil_from_days` algorithm of Howard Hinnant, standard for
epoch-to-calendar conversions): returns `(year, month, day)`. -/
def civil_from_days (z0 : Int) : Int × Nat × Nat :=
  let z := z0 + 719468
  let era : Int := z.fdiv 146097
  let doe : Nat := (z - era * 146097).toNat
  let yoe : Nat := (doe - doe / 1460 + doe / 36524 - doe / 146096) / 365
  let doy : Nat := doe - (365 * yoe + yoe / 4 - yoe / 100)
  let mp : Nat := (5 * doy + 2) / 153
  let d : Nat := doy - (153 * mp + 2) / 5 + 1
  let m : Nat := if mp < 10 then mp + 3 else mp - 9
  let y : Int := (yoe : Int) + era * 400
  (if m ≤ 2 then y + 1 else y, m, d)

/-- Modelled from pandas semantics: `pd.to_datetime` with unit seconds followed
by `.dt.strftime` with format %Y-%m-%d %H:%M:%S renders a Unix-epoch-seconds
value as the UTC calendar timestamp `YYYY-MM-DD HH:MM:SS`. -/
def strftime_epoch (epoch : Int) : String :=
  let days := epoch.fdiv 86400
  let sod : Nat := (epoch - days * 86400).toNat
  let c := civil_from_days days
  pad4 c.1.toNat ++ "-" ++ pad2 c.2.1 ++ "-" ++ pad2 c.2.2 ++ " " ++
    pad2 (sod / 3600) ++ ":" ++ pad2 (sod % 3600 / 60) ++ ":" ++ pad2 (sod % 60)

/-- Translation of `transform_current_weather_data` (`main.py` lines
114-143): flatten the
record; if the one-row frame has a `dt` column, add a `dt_txt` column holding
the UTC rendering of the epoch value (`none` models the raise pandas performs
when the `dt` cell is not a numeric epoch). -/
def transform_current_weather_data (data_dict : Row) : Option DataFrame :=
  let flattened_data := flattened_data_loop data_dict
  match dictGet flattened_data "dt" with
  | some (.i n) => some [dictSet flattened_data "dt_txt" (.s (strftime_epoch n))]
  | some _ => none
  | none => some [flattened_data]

/-- Column labels of a DataFrame: the union of the keys of its rows in
first-seen order (the pandas column union under `pd.concat`). -/
def dfCols (df : DataFrame) : List String :=
  df.foldl
    (fun cols r =>
      r.foldl (fun cs kv => if cs.contains kv.1 then cs else cs ++ [kv.1]) cols)
    []

/-- pandas suffixing in `DataFrame.merge`: a column whose name occurs on both
sides of the merge is renamed with the given suffix (`_x` left, `_y` right). -/
def suffixOverlap (lcols rcols : List String) (sfx : String) (r : Row) : Row :=
  r.map (fun kv =>
    if lcols.contains kv.1 && rcols.contains kv.1 then (kv.1 ++ sfx, kv.2) else kv)

/-- The cross merge of `forecast_df` with `city_df` (`main.py` line 191):
every left row is paired with every right row; overlapping column names
receive the pandas suffixes `_x` / `_y`. -/
def merge_cross (left right : DataFrame) : DataFrame :=
  let lcols := dfCols left
  let rcols := dfCols right
  left.foldl
    (fun acc lr =>
      acc ++ right.map (fun rr =>
        suffixOverlap lcols rcols "_x" lr ++ suffixOverlap lcols rcols "_y" rr))
    []

/-- The in-place reassignment of the `weather` entry of one interval
(`main.py` line 185): replace it by the first element of its list value.
Here `none` models the KeyError / IndexError raised when `weather` is
missing or its list is empty. -/
def weather_item_first (forecast_item : Row) : Option Row :=
  match dictGet forecast_item "weather" with
  | some (.arr (w :: _)) => some (dictSet forecast_item "weather" w)
  | _ => none

/-- The per-interval loop of `transform_forecasted_weather_data` (`main.py`
lines 183-187): mutate the `weather` entry of each interval, flatten it to a
one-row frame, and concatenate. Returns the accumulated frame together with
the post-state of the interval list (the in-place mutation made explicit). -/
def forecast_loop (forecasts_dict : List JVal) : Option (DataFrame × List JVal) :=
  forecasts_dict.foldlM
    (fun acc forecast_item => do
      let f ← asObjFields forecast_item
      let f2 ← weather_item_first f
      let forecast_item_df := convert_weather_api_dict_to_dataframe f2
      pure (acc.1 ++ forecast_item_df, acc.2 ++ [JVal.obj f2]))
    ([], [])

/-- Translation of `transform_forecasted_weather_data` (`main.py` lines
168-191). The second
component of the result is the post-state of the argument `data_dict`: the
loop mutates the interval dicts held by its `list` entry in place, so after
the call the record of the caller carries the replaced `weather` fields. -/
def transform_forecasted_weather_data (data_dict : Row) : Option (DataFrame × Row) := do
  let city_dict ← (dictGet data_dict "city").bind asObjFields
  let city_df := convert_weather_api_dict_to_dataframe city_dict
  let forecasts_dict ← (dictGet data_dict "list").bind asArrItems
  let (forecast_df, mutated_items) ← forecast_loop forecasts_dict
  pure (merge_cross forecast_df city_df, dictSet data_dict "list" (.arr mutated_items))

/-- One entry of the location registry: coordinates as they appear
interpolated into the request URLs. -/
structure Location where
  lat : String
  lon : String
  deriving DecidableEq, Repr

def base_url : String := "https://api.openweathermap.org/data/2.5/"

/-- The current-conditions URL built at `main.py` line 101. -/
def current_url (location : Location) (api_key : String) : String :=
  base_url ++ "weather?lat=" ++ location.lat ++ "&lon=" ++ location.lon ++
    "&appid=" ++ api_key ++ "&units=metric"

/-- The forecast URL built at `main.py` line 102. -/
def forecast_url (location : Location) (api_key : String) : String :=
  base_url ++ "forecast?lat=" ++ location.lat ++ "&lon=" ++ location.lon ++
    "&appid=" ++ api_key ++ "&units=metric"

/-- The `weather_data` accumulator of `get_weather_data`: two dicts keyed by
location name. -/
structure WeatherData where
  current : Row
  forecast : Row

/-- Translation of `get_weather_data` (`main.py` lines 86-111), over a fetch
oracle
`api : url ↦ Option JVal` standing for `fetch_api_data` (`none` models a
raised `RequestException`). Per location, the current fetch is performed and
its result stored; then the forecast fetch is performed and stored. A raise
is caught by the per-location `except`: note that when the forecast fetch
raises, the already-performed assignment to `current` stays in place. -/
def get_weather_data (api : String → Option JVal)
    (locations : List (String × Location)) (api_key : String) : WeatherData :=
  locations.foldl
    (fun weather_data nl =>
      match api (current_url nl.2 api_key) with
      | none => weather_data
      | some cur =>
        let wd1 : WeatherData :=
          ⟨dictSet weather_data.current nl.1 cur, weather_data.forecast⟩
        match api (forecast_url nl.2 api_key) with
        | none => wd1
        | some fc => ⟨wd1.current, dictSet wd1.forecast nl.1 fc⟩)
    ⟨[], []⟩

/-- The `bigquery.LoadJobConfig` built at `main.py` lines 42-50. -/
structure LoadJobConfig where
  autodetect : Bool
  write_disposition : String
  create_disposition : String
  deriving DecidableEq, Repr

def the_job_config : LoadJobConfig :=
  { autodetect := true
    write_disposition := "WRITE_TRUNCATE"
    create_disposition := "CREATE_IF_NEEDED" }

/-- The diagnostics `upload_df_to_bigquery` prints, kept structured. -/
inductive LogEntry where
  | createdDataset (dataset_id : String)
  | datasetExists
  | createdJobConfig
  | savedData
  | errColumnTypes (cols : List String)
  | errTableId (table_id : String)
  | errJobConfig (cfg : LoadJobConfig)
  | errMessage (e : String)
  deriving DecidableEq, Repr

/-- The external world of one run: the HTTP fetch oracle, whether the dataset
creation call succeeds, and the outcome of the load job per destination
`table_id` (the `error` payload is the exception the job raises). -/
structure Env where
  api : String → Option JVal
  createDatasetOk : Bool
  loadJob : String → Except String Unit

/-- Translation of `upload_df_to_bigquery` (`main.py` lines 10-64): build the
dataset id, try
to create the dataset (a failure is swallowed and logged as already-existing),
build the job config, then run the load job; on failure log the column
types of the frame, the destination table id, the job config and the error, and
re-raise the same error. -/
def upload_df_to_bigquery (env : Env) (dataframe : DataFrame)
    (project_id dataset_id table_name : String) :
    List LogEntry × Except String Unit :=
  let dataset_id := project_id ++ "." ++ dataset_id
  let logs0 :=
    if env.createDatasetOk then [LogEntry.createdDataset dataset_id]
    else [LogEntry.datasetExists]
  let table_id := dataset_id ++ "." ++ table_name
  let logs1 := logs0 ++ [LogEntry.createdJobConfig]
  match env.loadJob table_id with
  | .ok _ => (logs1 ++ [LogEntry.savedData], .ok ())
  | .error e =>
      (logs1 ++
        [LogEntry.errColumnTypes (dfCols dataframe), LogEntry.errTableId table_id,
          LogEntry.errJobConfig the_job_config, LogEntry.errMessage e],
        .error e)

/-- The inbound trigger payload of `main`: either a structured request object
whose JSON-body accessor succeeds, or a raw string together with the result of
parsing it as JSON (`none` models a parse failure). -/
inductive Request where
  | structured (body : JVal)
  | rawJson (parsed : Option JVal)

/-- Translation of `main.py` lines 195-198: the structured JSON-body accessor
with fallback to parsing the raw string as JSON; `none` means both paths
raise. -/
def request_body_of : Request → Option JVal
  | .structured body => some body
  | .rawJson parsed => parsed

/-- The configuration read from the `settings` module. -/
structure Settings where
  API_KEY : String
  GCP_PROJECT_ID : String
  DATASET_ID : String

/-- Externally visible steps of a run, for ordering statements. -/
inductive Event where
  | fetch (location_name : String)
  | write (table_name : String)
  deriving DecidableEq, Repr

/-- The current-weather accumulation loop of `main` (`main.py` lines
202-204): transform each fetched record and concatenate the rows. -/
def concat_current (records : Row) : Option DataFrame :=
  records.foldlM
    (fun df kv => do
      let t ← asObjFields kv.2
      let d ← transform_current_weather_data t
      pure (df ++ d))
    []

/-- The forecast accumulation loop of `main` (`main.py` lines 205-207). -/
def concat_forecast (records : Row) : Option DataFrame :=
  records.foldlM
    (fun df kv => do
      let t ← asObjFields kv.2
      let d ← transform_forecasted_weather_data t
      pure (df ++ d.1))
    []

/-- Translation of `main` (`main.py` lines 194-212), returning the trace of
externally
visible events alongside the outcome. Fetching happens first (one `fetch`
event per registry entry, failures skipped inside `get_weather_data`), then
both transformations, then the `current_weather` write is attempted, and only
if it returns without raising is the `forecasted_weather` write attempted; a
raised load error propagates out of `main`. On completion the string
`"200, Success"` is returned. -/
def main_run (env : Env) (settings : Settings)
    (locations : List (String × Location)) (request : Request) :
    List Event × Except String String :=
  match request_body_of request with
  | none => ([], .error "request body parse failure")
  | some _ =>
    let data := get_weather_data env.api locations settings.API_KEY
    let fetch_events := locations.map (fun nl => Event.fetch nl.1)
    match concat_current data.current with
    | none => (fetch_events, .error "transform failure")
    | some current_weather =>
      match concat_forecast data.forecast with
      | none => (fetch_events, .error "transform failure")
      | some forecast_weather =>
        let r1 := upload_df_to_bigquery env current_weather
          settings.GCP_PROJECT_ID settings.DATASET_ID "current_weather"
        match r1.2 with
        | .error e => (fetch_events ++ [Event.write "current_weather"], .error e)
        | .ok _ =>
          let r2 := upload_df_to_bigquery env forecast_weather
            settings.GCP_PROJECT_ID settings.DATASET_ID "forecasted_weather"
          (fetch_events ++ [Event.write "current_weather", Event.write "forecasted_weather"],
            match r2.2 with
            | .error e => .error e
            | .ok _ => .ok "200, Success")

/-! ## Specification-side reference definitions

`flatPairs` is the Row Flattener as the spec words it ("emit one output entry
per inner key named `K_<innerkey>`; otherwise emit the value under the
original key"), written as a plain concatenation with no overwriting. The
imperative loops of the source coincide with it exactly when the emitted
names are pairwise distinct; `emittedNames` lists those names. -/

/-- What the Row Flattener emits for one top-level entry, as the spec words
it: one pair `("K_<innerkey>", innervalue)` per inner key of a mapping value,
the entry itself otherwise. -/
def flatEntry (kv : String × JVal) : Row :=
  match kv.2 with
  | .obj fields => fields.map (fun sub => (kv.1 ++ "_" ++ sub.1, sub.2))
  | _ => [kv]

/-- The entries the Row Flattener emits, in emission order, as the spec
describes them (no dict overwriting). -/
def flatPairs : Row → Row
  | [] => []
  | kv :: rest => flatEntry kv ++ flatPairs rest

/-- The output names the Row Flattener emits, in emission order. -/
def emittedNames (data_dict : Row) : List String :=
  (flatPairs data_dict).map Prod.fst

/-- Python `isinstance(v, dict)` as a Boolean. -/
def isObjVal : JVal → Bool
  | .obj _ => true
  | _ => false

/-- The in-place `weather`-head replacement of one forecast interval as a
total function; it agrees with `weather_item_first` whenever the interval has
a nonempty `weather` list. -/
def mutateItem (forecast_item : Row) : Row :=
  match dictGet forecast_item "weather" with
  | some (.arr (w :: _)) => dictSet forecast_item "weather" w
  | _ => forecast_item

/-! ## Dictionary lemmas -/

theorem dictGet_eq_none_iff (d : Row) (k : String) :
    dictGet d k = none ↔ k ∉ d.map Prod.fst := by
  induction d with
  | nil => simp [dictGet]
  | cons kv rest ih =>
    by_cases h : kv.1 = k
    · subst h
      simp [dictGet]
    · rw [dictGet, if_neg h, ih]
      simp only [List.map_cons, List.mem_cons]
      constructor
      · intro hn hc
        rcases hc with hc | hc
        · exact h hc.symm
        · exact hn hc
      · intro hn hc
        exact hn (Or.inr hc)

theorem dictGet_mem {d : Row} {k : String} {v : JVal}
    (h : dictGet d k = some v) : (k, v) ∈ d := by
  induction d with
  | nil => simp [dictGet] at h
  | cons kv rest ih =>
    by_cases hk : kv.1 = k
    · rw [dictGet, if_pos hk] at h
      have h2 : kv = (k, v) := by
        obtain ⟨a, b⟩ := kv
        simp only [Option.some.injEq] at h
        simp only at hk
        rw [hk, h]
      exact List.mem_cons.mpr (Or.inl h2.symm)
    · rw [dictGet, if_neg hk] at h
      exact List.mem_cons_of_mem _ (ih h)

theorem dictGet_of_mem_nodup {d : Row} {k : String} {v : JVal}
    (hnd : (d.map Prod.fst).Nodup) (h : (k, v) ∈ d) : dictGet d k = some v := by
  induction d with
  | nil => simp at h
  | cons kv rest ih =>
    simp only [List.map_cons, List.nodup_cons] at hnd
    rcases List.mem_cons.mp h with h1 | h1
    · rw [← h1]
      simp [dictGet]
    · have hk : kv.1 ≠ k := by
        intro he
        exact hnd.1 (he ▸ (List.mem_map.mpr ⟨(k, v), h1, rfl⟩))
      simp [dictGet, hk]
      exact ih hnd.2 h1

theorem dictSet_fresh (d : Row) (k : String) (v : JVal)
    (h : k ∉ d.map Prod.fst) : dictSet d k v = d ++ [(k, v)] := by
  rw [dictSet, if_neg]
  simp [h]

theorem dictGet_dictSet_self (d : Row) (k : String) (v : JVal) :
    dictGet (dictSet d k v) k = some v := by
  rw [dictSet]
  by_cases h : (d.map Prod.fst).contains k
  · rw [if_pos h]
    have hm : k ∈ d.map Prod.fst := by simpa using h
    clear h
    induction d with
    | nil => simp at hm
    | cons kv rest ih =>
      by_cases hk : kv.1 = k
      · simp [hk, dictGet]
      · simp only [List.map_cons, List.mem_cons] at hm
        rcases hm with hm | hm
        · exact absurd hm.symm hk
        · simp only [List.map_cons, if_neg hk, dictGet]
          exact ih hm
  · rw [if_neg h]
    have hm : k ∉ d.map Prod.fst := by simpa using h
    clear h
    induction d with
    | nil => simp [dictGet]
    | cons kv rest ih =>
      simp only [List.map_cons, List.mem_cons] at hm
      push_neg at hm
      rw [List.cons_append, dictGet, if_neg (fun he => hm.1 he.symm)]
      exact ih hm.2

theorem dictGet_dictSet_ne (d : Row) (k k2 : String) (v : JVal)
    (h : k2 ≠ k) : dictGet (dictSet d k v) k2 = dictGet d k2 := by
  rw [dictSet]
  by_cases hc : (d.map Prod.fst).contains k
  · rw [if_pos hc]
    clear hc
    induction d with
    | nil => simp
    | cons kv rest ih =>
      simp only [List.map_cons, dictGet]
      by_cases hk : kv.1 = k
      · rw [if_pos hk,
           if_neg (show ¬((k, v) : String × JVal).1 = k2 from fun he => h he.symm),
           if_neg (show ¬kv.1 = k2 from fun he => h ((hk.symm.trans he).symm))]
        exact ih
      · rw [if_neg hk]
        by_cases hk2 : kv.1 = k2
        · rw [if_pos hk2, if_pos hk2]
        · rw [if_neg hk2, if_neg hk2]
          exact ih
  · rw [if_neg hc]
    clear hc
    induction d with
    | nil => simp [dictGet, Ne.symm h]
    | cons kv rest ih =>
      rw [List.cons_append, dictGet, dictGet]
      by_cases hk2 : kv.1 = k2
      · rw [if_pos hk2, if_pos hk2]
      · rw [if_neg hk2, if_neg hk2]
        exact ih

/-- Keys after a `dictSet`: unchanged on overwrite, extended on a fresh key. -/
theorem dictSet_keys (d : Row) (k : String) (v : JVal) :
    (dictSet d k v).map Prod.fst =
      if k ∈ d.map Prod.fst then d.map Prod.fst else d.map Prod.fst ++ [k] := by
  rw [dictSet]
  by_cases hc : (d.map Prod.fst).contains k
  · have hm : k ∈ d.map Prod.fst := by simpa using hc
    rw [if_pos hc, if_pos hm, List.map_map]
    apply List.map_congr_left
    intro kv _
    by_cases hk : kv.1 = k
    · simp [hk]
    · simp [hk]
  · have hm : k ∉ d.map Prod.fst := by simpa using hc
    rw [if_neg hc, if_neg hm]
    simp

/-! ## The imperative flattening loop equals the emission list of the spec
when the emitted names do not collide -/

/-- One iteration of the flattening loop of the source, named for the proofs. -/
def flattenStep (extracted : Row) (kv : String × JVal) : Row :=
  match kv.2 with
  | .obj fields =>
      fields.foldl (fun a sub => dictSet a (kv.1 ++ "_" ++ sub.1) sub.2) extracted
  | v => dictSet extracted kv.1 v

theorem extracted_data_loop_eq_foldl (d : Row) :
    extracted_data_loop d = d.foldl flattenStep [] := rfl

theorem flattened_data_loop_eq_foldl (d : Row) :
    flattened_data_loop d = d.foldl flattenStep [] := rfl

theorem emittedNames_eq (d : Row) : emittedNames d = (flatPairs d).map Prod.fst := rfl

/-- Folding the inner `dictSet` writes of one nested mapping is a plain
append when the generated compound names are fresh and pairwise distinct. -/
theorem fields_fold_fresh (k : String) (fields : Row) :
    ∀ acc : Row,
      (acc.map Prod.fst ++ fields.map (fun sub => k ++ "_" ++ sub.1)).Nodup →
      fields.foldl (fun a sub => dictSet a (k ++ "_" ++ sub.1) sub.2) acc
        = acc ++ fields.map (fun sub => (k ++ "_" ++ sub.1, sub.2)) := by
  induction fields with
  | nil =>
    intro acc _
    simp
  | cons sub rest ih =>
    intro acc h
    have hdisj := (List.nodup_append.mp h).2.2
    have hfresh : (k ++ "_" ++ sub.1) ∉ acc.map Prod.fst := by
      intro hmem
      exact hdisj hmem (by simp)
    rw [List.foldl_cons, dictSet_fresh _ _ _ hfresh,
        ih (acc ++ [(k ++ "_" ++ sub.1, sub.2)]) (by simpa using h)]
    simp

/-- The flattening fold of the source is a plain append of the emission list
of the spec, provided the pending emitted names collide neither with the
accumulator keys nor with each other. -/
theorem flatten_fold_eq (d : Row) :
    ∀ acc : Row, (acc.map Prod.fst ++ emittedNames d).Nodup →
      d.foldl flattenStep acc = acc ++ flatPairs d := by
  induction d with
  | nil =>
    intro acc _
    simp [flatPairs]
  | cons kv rest ih =>
    intro acc h
    obtain ⟨k, v⟩ := kv
    rw [List.foldl_cons]
    rw [emittedNames_eq, flatPairs] at h
    cases v with
    | obj fields =>
      have hstep : flattenStep acc (k, JVal.obj fields)
          = acc ++ fields.map (fun sub => (k ++ "_" ++ sub.1, sub.2)) := by
        apply fields_fold_fresh
        have : (flatEntry (k, JVal.obj fields)).map Prod.fst
            = fields.map (fun sub => k ++ "_" ++ sub.1) := by
          simp [flatEntry, List.map_map]
        rw [List.map_append, this] at h
        exact (List.nodup_append.mp (by simpa [List.append_assoc] using h)).1
      rw [hstep, ih _ ?hnd]
      · simp [flatPairs, flatEntry]
      case hnd =>
        have : (flatEntry (k, JVal.obj fields)).map Prod.fst
            = fields.map (fun sub => k ++ "_" ++ sub.1) := by
          simp [flatEntry, List.map_map]
        rw [List.map_append, this] at h
        rw [List.map_append]
        simp only [List.map_map]
        rw [emittedNames_eq]
        simpa [List.append_assoc] using h
    | s sv =>
      have hstep : flattenStep acc (k, JVal.s sv) = acc ++ [(k, JVal.s sv)] := by
        apply dictSet_fresh
        intro hmem
        have hdisj := (List.nodup_append.mp h).2.2
        exact hdisj hmem (by simp [flatEntry])
      rw [hstep, ih _ (by simpa [flatEntry, List.append_assoc] using h)]
      simp [flatPairs, flatEntry]
    | i iv =>
      have hstep : flattenStep acc (k, JVal.i iv) = acc ++ [(k, JVal.i iv)] := by
        apply dictSet_fresh
        intro hmem
        have hdisj := (List.nodup_append.mp h).2.2
        exact hdisj hmem (by simp [flatEntry])
      rw [hstep, ih _ (by simpa [flatEntry, List.append_assoc] using h)]
      simp [flatPairs, flatEntry]
    | b bv =>
      have hstep : flattenStep acc (k, JVal.b bv) = acc ++ [(k, JVal.b bv)] := by
        apply dictSet_fresh
        intro hmem
        have hdisj := (List.nodup_append.mp h).2.2
        exact hdisj hmem (by simp [flatEntry])
      rw [hstep, ih _ (by simpa [flatEntry, List.append_assoc] using h)]
      simp [flatPairs, flatEntry]
    | null =>
      have hstep : flattenStep acc (k, JVal.null) = acc ++ [(k, JVal.null)] := by
        apply dictSet_fresh
        intro hmem
        have hdisj := (List.nodup_append.mp h).2.2
        exact hdisj hmem (by simp [flatEntry])
      rw [hstep, ih _ (by simpa [flatEntry, List.append_assoc] using h)]
      simp [flatPairs, flatEntry]
    | arr items =>
      have hstep : flattenStep acc (k, JVal.arr items) = acc ++ [(k, JVal.arr items)] := by
        apply dictSet_fresh
        intro hmem
        have hdisj := (List.nodup_append.mp h).2.2
        exact hdisj hmem (by simp [flatEntry])
      rw [hstep, ih _ (by simpa [flatEntry, List.append_assoc] using h)]
      simp [flatPairs, flatEntry]

/-- Under pairwise-distinct emitted names the imperative loop produces
exactly the emission list of the spec. -/
theorem extracted_data_loop_eq_flatPairs (d : Row)
    (hnd : (emittedNames d).Nodup) : extracted_data_loop d = flatPairs d := by
  rw [extracted_data_loop_eq_foldl, flatten_fold_eq d [] (by simpa using hnd)]
  rfl

theorem flatPairs_eq_self (d : Row) (h : ∀ kv ∈ d, isObjVal kv.2 = false) :
    flatPairs d = d := by
  induction d with
  | nil => rfl
  | cons kv rest ih =>
    have hkv := h kv (List.mem_cons_self kv rest)
    have hrest := ih (fun x hx => h x (List.mem_cons_of_mem kv hx))
    rw [flatPairs, hrest]
    obtain ⟨k, v⟩ := kv
    cases v with
    | obj fields => simp [isObjVal] at hkv
    | s sv => rfl
    | i iv => rfl
    | b bv => rfl
    | null => rfl
    | arr items => rfl

theorem flatPairs_mem {d fields : Row} {K : String}
    (hK : (K, JVal.obj fields) ∈ d) {j : String} {u : JVal}
    (hj : (j, u) ∈ fields) :
    (K ++ "_" ++ j, u) ∈ flatPairs d := by
  induction d with
  | nil => simp at hK
  | cons kv rest ih =>
    rw [flatPairs, List.mem_append]
    rcases List.mem_cons.mp hK with h1 | h1
    · left
      rw [← h1]
      simp only [flatEntry]
      exact List.mem_map.mpr ⟨(j, u), hj, rfl⟩
    · right
      exact ih h1

/-- The two duplicated flattening loops are one and the same function
(helper form, used when rewriting between them). -/
theorem flattened_eq_extracted (d : Row) :
    flattened_data_loop d = extracted_data_loop d := rfl

/-! ## Claim C2 — Row Flattener input/output shape -/

/-- Claim C2 as stated is false on the code: in the input
`{"a": {"b": 1}, "a_b": 2}` the nested mapping under `"a"` has inner key
`"b"` with inner value `1`, yet the single `"a_b"` entry of the output
holds `2`, not the inner value — the later top-level entry overwrites the
generated compound name in the dict the loop builds. -/
theorem c2_counterexample :
    dictGet [("a", JVal.obj [("b", JVal.i 1)]), ("a_b", JVal.i 2)] "a"
        = some (JVal.obj [("b", JVal.i 1)]) ∧
    extracted_data_loop [("a", JVal.obj [("b", JVal.i 1)]), ("a_b", JVal.i 2)]
        = [("a_b", JVal.i 2)] ∧
    dictGet (extracted_data_loop [("a", JVal.obj [("b", JVal.i 1)]), ("a_b", JVal.i 2)])
        ("a" ++ "_" ++ "b") ≠ some (JVal.i 1) := by
  refine ⟨rfl, rfl, ?_⟩
  intro h
  have h2 : (some (JVal.i 2) : Option JVal) = some (JVal.i 1) :=
    (show (some (JVal.i 2) : Option JVal)
        = dictGet (extracted_data_loop
            [("a", JVal.obj [("b", JVal.i 1)]), ("a_b", JVal.i 2)])
          ("a" ++ "_" ++ "b") from rfl).trans h
  injection h2 with h3
  injection h3 with h4
  exact absurd h4 (by decide)

/-- CLAIM C2 (amended): provided the names the flattener emits are pairwise
distinct and, for the nested-mapping part, no emitted name equals the outer
key `K`: an input with no nested-mapping value flattens to itself unchanged,
and a nested mapping under `K` yields exactly one `K_<innerkey>` entry per
inner key, holding the inner value, with no output entry named `K`. -/
theorem c2_amended (d : Row) (hnd : (emittedNames d).Nodup) :
    ((∀ kv ∈ d, isObjVal kv.2 = false) → extracted_data_loop d = d) ∧
    (∀ K fields, dictGet d K = some (JVal.obj fields) → K ∉ emittedNames d →
      (∀ j u, (j, u) ∈ fields →
        ((extracted_data_loop d).map Prod.fst).count (K ++ "_" ++ j) = 1 ∧
        dictGet (extracted_data_loop d) (K ++ "_" ++ j) = some u) ∧
      ((extracted_data_loop d).map Prod.fst).count K = 0) := by
  have hE := extracted_data_loop_eq_flatPairs d hnd
  constructor
  · intro hflat
    rw [hE, flatPairs_eq_self d hflat]
  · intro K fields hK hKn
    have hKmem : (K, JVal.obj fields) ∈ d := dictGet_mem hK
    have hkeys : (extracted_data_loop d).map Prod.fst = emittedNames d := by
      rw [hE, emittedNames_eq]
    refine ⟨fun j u hj => ?_, ?_⟩
    · have hmem : (K ++ "_" ++ j, u) ∈ flatPairs d := flatPairs_mem hKmem hj
      have hname : (K ++ "_" ++ j) ∈ emittedNames d := by
        rw [emittedNames_eq]
        exact List.mem_map.mpr ⟨_, hmem, rfl⟩
      refine ⟨?_, ?_⟩
      · rw [hkeys]
        exact List.count_eq_one_of_mem hnd hname
      · rw [hE]
        refine dictGet_of_mem_nodup ?_ hmem
        rw [← emittedNames_eq]
        exact hnd
    · rw [hkeys]
      exact List.count_eq_zero_of_not_mem hKn

/-- Witness for `c2_amended` at concrete inputs: the flat input
`{"x": 7}` is returned unchanged, and `{"x": 7, "k": {"a": 1, "b": "z"}}`
yields the entries `k_a = 1` and `k_b = "z"` once each and no entry `k`. -/
theorem c2_amended_witness :
    (emittedNames [("x", JVal.i 7), ("k", JVal.obj [("a", JVal.i 1), ("b", JVal.s "z")])]).Nodup ∧
    extracted_data_loop [("x", JVal.i 7)] = [("x", JVal.i 7)] ∧
    dictGet (extracted_data_loop
        [("x", JVal.i 7), ("k", JVal.obj [("a", JVal.i 1), ("b", JVal.s "z")])])
      ("k" ++ "_" ++ "a") = some (JVal.i 1) ∧
    ((extracted_data_loop
        [("x", JVal.i 7), ("k", JVal.obj [("a", JVal.i 1), ("b", JVal.s "z")])]).map
        Prod.fst).count "k" = 0 := by
  have hnd1 : (emittedNames [("x", JVal.i 7)]).Nodup := by decide
  have hnd2 : (emittedNames
      [("x", JVal.i 7), ("k", JVal.obj [("a", JVal.i 1), ("b", JVal.s "z")])]).Nodup := by
    decide
  have h2 := (c2_amended _ hnd2).2 "k" [("a", JVal.i 1), ("b", JVal.s "z")] rfl (by decide)
  exact ⟨hnd2, (c2_amended _ hnd1).1 (by decide),
    (h2.1 "a" (JVal.i 1) (by simp)).2, h2.2⟩

/-! ## Claim C8 — flattening is non-recursive beyond one level -/

/-- Claim C8 as stated is false on the code: in
`{"a": {"b": {"c": 1}}, "a_b": 2}` the doubly-nested mapping `{"c": 1}` sits
under top-level key `"a"` and inner key `"b"`, but the `"a_b"` entry of the output
holds `2` (the colliding later top-level entry overwrote it), not the inner
dictionary. -/
theorem c8_counterexample :
    dictGet [("a", JVal.obj [("b", JVal.obj [("c", JVal.i 1)])]), ("a_b", JVal.i 2)] "a"
        = some (JVal.obj [("b", JVal.obj [("c", JVal.i 1)])]) ∧
    dictGet (extracted_data_loop
        [("a", JVal.obj [("b", JVal.obj [("c", JVal.i 1)])]), ("a_b", JVal.i 2)])
      ("a" ++ "_" ++ "b") ≠ some (JVal.obj [("c", JVal.i 1)]) := by
  refine ⟨rfl, ?_⟩
  intro h
  have h2 : (some (JVal.i 2) : Option JVal) = some (JVal.obj [("c", JVal.i 1)]) :=
    (show (some (JVal.i 2) : Option JVal)
        = dictGet (extracted_data_loop
            [("a", JVal.obj [("b", JVal.obj [("c", JVal.i 1)])]), ("a_b", JVal.i 2)])
          ("a" ++ "_" ++ "b") from rfl).trans h
  exact JVal.noConfusion (Option.some.inj h2)

/-- CLAIM C8 (amended): provided the emitted names are pairwise distinct,
a mapping value `D` under inner key `J` of the mapping at top-level key `K`
appears in the flattened output as the entry `K_J` holding `D` itself,
un-flattened. -/
theorem c8_amended (d fields inner : Row) (K J : String)
    (hnd : (emittedNames d).Nodup)
    (hK : dictGet d K = some (JVal.obj fields))
    (hJ : dictGet fields J = some (JVal.obj inner)) :
    dictGet (extracted_data_loop d) (K ++ "_" ++ J) = some (JVal.obj inner) := by
  rw [extracted_data_loop_eq_flatPairs d hnd]
  refine dictGet_of_mem_nodup ?_ (flatPairs_mem (dictGet_mem hK) (dictGet_mem hJ))
  rw [← emittedNames_eq]
  exact hnd

/-- Witness for `c8_amended`: in `{"k": {"a": {"c": 5}}}` the output entry
`k_a` holds the inner dictionary `{"c": 5}` unexpanded. -/
theorem c8_amended_witness :
    (emittedNames [("k", JVal.obj [("a", JVal.obj [("c", JVal.i 5)])])]).Nodup ∧
    dictGet (extracted_data_loop [("k", JVal.obj [("a", JVal.obj [("c", JVal.i 5)])])])
      ("k" ++ "_" ++ "a") = some (JVal.obj [("c", JVal.i 5)]) := by
  have hnd : (emittedNames [("k", JVal.obj [("a", JVal.obj [("c", JVal.i 5)])])]).Nodup := by
    decide
  exact ⟨hnd, c8_amended _ _ _ "k" "a" hnd rfl rfl⟩

/-! ## Claim C7 — the two flattening loops are extensionally equal -/

/-- CLAIM C7: the flattening logic embedded in `transform_current_weather_data`
and the flattening logic of `convert_weather_api_dict_to_dataframe` are
extensionally equal: on every input dict they compute the same flat mapping
(the source duplicates the loop verbatim, so the two translations are one
and the same function). -/
theorem c7_flattener_identical :
    ∀ data_dict : Row, flattened_data_loop data_dict = extracted_data_loop data_dict :=
  fun _ => rfl

/-! ## Claim C4 — current-weather timestamp derivation -/

/-- CLAIM C4: when the flattened current-weather record holds an integer
Unix-epoch-seconds entry `dt = n`, the transformer returns a single-row table
whose `dt` column still holds `n` and which additionally has a `dt_txt`
column holding the UTC calendar rendering `YYYY-MM-DD HH:MM:SS` of `n`; when
`dt` is absent the returned single row is exactly the flattened record, with
no timestamp column added. -/
theorem c4_current_dt (data_dict : Row) (n : Int) :
    (dictGet (flattened_data_loop data_dict) "dt" = some (JVal.i n) →
      ∃ row, transform_current_weather_data data_dict = some [row] ∧
        dictGet row "dt" = some (JVal.i n) ∧
        dictGet row "dt_txt" = some (JVal.s (strftime_epoch n))) ∧
    (dictGet (flattened_data_loop data_dict) "dt" = none →
      transform_current_weather_data data_dict
        = some [flattened_data_loop data_dict]) := by
  constructor
  · intro h
    refine ⟨dictSet (flattened_data_loop data_dict) "dt_txt"
      (JVal.s (strftime_epoch n)), ?_, ?_, ?_⟩
    · simp only [transform_current_weather_data, h]
    · rw [dictGet_dictSet_ne _ _ _ _ (by decide)]
      exact h
    · exact dictGet_dictSet_self _ _ _
  · intro h
    simp only [transform_current_weather_data, h]

/-- Witness for `c4_current_dt` at the concrete input of the claim:
`{"dt": 1700000000, "main": {"temp": 15}}`: the row has `dt = 1700000000`,
`main_temp = 15` and `dt_txt = "2023-11-14 22:13:20"`; and on the dt-free
input `{"a": 1}` the transformer returns the flattened record unchanged. -/
theorem c4_current_dt_witness :
    dictGet (flattened_data_loop
        [("dt", JVal.i 1700000000), ("main", JVal.obj [("temp", JVal.i 15)])]) "dt"
      = some (JVal.i 1700000000) ∧
    strftime_epoch 1700000000 = "2023-11-14 22:13:20" ∧
    dictGet (flattened_data_loop
        [("dt", JVal.i 1700000000), ("main", JVal.obj [("temp", JVal.i 15)])]) "main_temp"
      = some (JVal.i 15) ∧
    (∃ row, transform_current_weather_data
        [("dt", JVal.i 1700000000), ("main", JVal.obj [("temp", JVal.i 15)])]
        = some [row] ∧
      dictGet row "dt" = some (JVal.i 1700000000) ∧
      dictGet row "dt_txt" = some (JVal.s (strftime_epoch 1700000000))) ∧
    transform_current_weather_data [("a", JVal.i 1)]
      = some [flattened_data_loop [("a", JVal.i 1)]] :=
  ⟨rfl, rfl, rfl, (c4_current_dt _ 1700000000).1 rfl,
    (c4_current_dt [("a", JVal.i 1)] 0).2 rfl⟩

/-! ## Claim C1 — per-location failure policy of the Weather Fetcher -/

/-- One iteration of the per-location loop of `get_weather_data`, named for
the proofs. -/
def fetchStep (api : String → Option JVal) (api_key : String)
    (weather_data : WeatherData) (nl : String × Location) : WeatherData :=
  match api (current_url nl.2 api_key) with
  | none => weather_data
  | some cur =>
    let wd1 : WeatherData :=
      ⟨dictSet weather_data.current nl.1 cur, weather_data.forecast⟩
    match api (forecast_url nl.2 api_key) with
    | none => wd1
    | some fc => ⟨wd1.current, dictSet wd1.forecast nl.1 fc⟩

theorem get_weather_data_eq_foldl (api : String → Option JVal)
    (locations : List (String × Location)) (api_key : String) :
    get_weather_data api locations api_key
      = locations.foldl (fetchStep api api_key) ⟨[], []⟩ := rfl

/-- A location name not in the remaining registry is untouched by the rest of
the fetch loop. -/
theorem fetch_fold_preserves (api : String → Option JVal) (api_key : String)
    (name : String) :
    ∀ (locations : List (String × Location)) (wd : WeatherData),
      name ∉ locations.map Prod.fst →
      dictGet (locations.foldl (fetchStep api api_key) wd).current name
          = dictGet wd.current name ∧
      dictGet (locations.foldl (fetchStep api api_key) wd).forecast name
          = dictGet wd.forecast name := by
  intro locations
  induction locations with
  | nil =>
    intro wd _
    exact ⟨rfl, rfl⟩
  | cons nl rest ih =>
    intro wd hn
    simp only [List.map_cons, List.mem_cons] at hn
    push_neg at hn
    rw [List.foldl_cons]
    have hstep : dictGet (fetchStep api api_key wd nl).current name
          = dictGet wd.current name ∧
        dictGet (fetchStep api api_key wd nl).forecast name
          = dictGet wd.forecast name := by
      rw [fetchStep]
      cases api (current_url nl.2 api_key) with
      | none => exact ⟨rfl, rfl⟩
      | some cur =>
        cases api (forecast_url nl.2 api_key) with
        | none => exact ⟨dictGet_dictSet_ne _ _ _ _ hn.1, rfl⟩
        | some fc =>
          exact ⟨dictGet_dictSet_ne _ _ _ _ hn.1, dictGet_dictSet_ne _ _ _ _ hn.1⟩
    have hrest := ih (fetchStep api api_key wd nl) hn.2
    exact ⟨hrest.1.trans hstep.1, hrest.2.trans hstep.2⟩

/-- Characterization of the fetch loop on a registry with distinct names: a
its `current` binding is exactly the outcome of its current-conditions
fetch, and its `forecast` binding is the outcome of the forecast fetch
guarded by the success of the current fetch. -/
theorem fetch_fold_mem (api : String → Option JVal) (api_key : String)
    (name : String) (loc : Location) :
    ∀ (locations : List (String × Location)) (wd : WeatherData),
      (locations.map Prod.fst).Nodup →
      (name, loc) ∈ locations →
      dictGet wd.current name = none →
      dictGet wd.forecast name = none →
      dictGet (locations.foldl (fetchStep api api_key) wd).current name
          = api (current_url loc api_key) ∧
      dictGet (locations.foldl (fetchStep api api_key) wd).forecast name
          = (api (current_url loc api_key)).bind
              (fun _ => api (forecast_url loc api_key)) := by
  intro locations
  induction locations with
  | nil =>
    intro wd _ hmem
    simp at hmem
  | cons nl rest ih =>
    intro wd hnd hmem hc hf
    simp only [List.map_cons, List.nodup_cons] at hnd
    rw [List.foldl_cons]
    rcases List.mem_cons.mp hmem with h1 | h1
    · have hname : nl.1 = name := by rw [← h1]
      have hloc : nl.2 = loc := by rw [← h1]
      have hnotin : name ∉ rest.map Prod.fst := hname ▸ hnd.1
      have hp := fetch_fold_preserves api api_key name rest
        (fetchStep api api_key wd nl) hnotin
      rw [hp.1, hp.2, fetchStep, ← hloc]
      cases hcur : api (current_url nl.2 api_key) with
      | none => exact ⟨hc, hf⟩
      | some cur =>
        cases hfc : api (forecast_url nl.2 api_key) with
        | none =>
          refine ⟨?_, ?_⟩
          · rw [hname]
            exact dictGet_dictSet_self _ _ _
          · exact hf
        | some fc =>
          refine ⟨?_, ?_⟩
          · rw [hname]
            exact dictGet_dictSet_self _ _ _
          · rw [hname]
            exact dictGet_dictSet_self _ _ _
    · have hnamene : nl.1 ≠ name := by
        intro he
        exact hnd.1 (he ▸ List.mem_map.mpr ⟨(name, loc), h1, rfl⟩)
      have hne : name ≠ nl.1 := fun he => hnamene he.symm
      have hc2 : dictGet (fetchStep api api_key wd nl).current name = none := by
        rw [fetchStep]
        cases api (current_url nl.2 api_key) with
        | none => exact hc
        | some cur =>
          cases api (forecast_url nl.2 api_key) with
          | none => exact (dictGet_dictSet_ne _ _ _ _ hne).trans hc
          | some fc => exact (dictGet_dictSet_ne _ _ _ _ hne).trans hc
      have hf2 : dictGet (fetchStep api api_key wd nl).forecast name = none := by
        rw [fetchStep]
        cases api (current_url nl.2 api_key) with
        | none => exact hf
        | some cur =>
          cases api (forecast_url nl.2 api_key) with
          | none => exact hf
          | some fc => exact (dictGet_dictSet_ne _ _ _ _ hne).trans hf
      exact ih (fetchStep api api_key wd nl) hnd.2 h1 hc2 hf2

/-- Claim C1 as stated is false on the code: with a fetch oracle that answers
the current-conditions URL of the single location `"Athens"` but raises on
its forecast URL, the forecast fetch fails, yet `"Athens"` is still present
in the `current` result mapping — the `except` block does not undo the
already-stored current assignment, so exclusion is not all-or-nothing. -/
theorem c1_counterexample :
    (fun url => if url = current_url ⟨"1.0", "2.0"⟩ "KEY"
        then some (JVal.obj []) else none)
      (forecast_url ⟨"1.0", "2.0"⟩ "KEY") = none ∧
    dictGet (get_weather_data
        (fun url => if url = current_url ⟨"1.0", "2.0"⟩ "KEY"
          then some (JVal.obj []) else none)
        [("Athens", ⟨"1.0", "2.0"⟩)] "KEY").current "Athens"
      = some (JVal.obj []) ∧
    dictGet (get_weather_data
        (fun url => if url = current_url ⟨"1.0", "2.0"⟩ "KEY"
          then some (JVal.obj []) else none)
        [("Athens", ⟨"1.0", "2.0"⟩)] "KEY").forecast "Athens" = none := by
  refine ⟨?_, ?_, ?_⟩ <;> rfl

/-- CLAIM C1 (amended): on a registry with distinct location names, a
location appears in the `forecast` result set exactly when both of its
fetches succeed (all-or-nothing holds for `forecast`), while it appears in
the `current` result set exactly when its current fetch succeeds — a
location whose forecast fetch fails after a successful current fetch is
excluded from `forecast` but retained in `current`; every registry entry is
processed independently, and no other name appears in either result set. -/
theorem c1_amended (api : String → Option JVal)
    (locations : List (String × Location)) (api_key : String)
    (hnd : (locations.map Prod.fst).Nodup) :
    (∀ name loc, (name, loc) ∈ locations →
      dictGet (get_weather_data api locations api_key).current name
          = api (current_url loc api_key) ∧
      dictGet (get_weather_data api locations api_key).forecast name
          = (api (current_url loc api_key)).bind
              (fun _ => api (forecast_url loc api_key))) ∧
    (∀ name, name ∉ locations.map Prod.fst →
      dictGet (get_weather_data api locations api_key).current name = none ∧
      dictGet (get_weather_data api locations api_key).forecast name = none) := by
  constructor
  · intro name loc hmem
    rw [get_weather_data_eq_foldl]
    exact fetch_fold_mem api api_key name loc locations ⟨[], []⟩ hnd hmem rfl rfl
  · intro name hn
    rw [get_weather_data_eq_foldl]
    exact fetch_fold_preserves api api_key name locations ⟨[], []⟩ hn

/-- Witness for `c1_amended`: a two-location registry where `"A"` succeeds on
both calls and `"B"` fails its forecast call; `"A"` lands in both result
sets, `"B"` only in `current`, and the unknown name `"C"` in neither. -/
theorem c1_amended_witness :
    ((([("A", ⟨"1", "2"⟩), ("B", ⟨"3", "4"⟩)] : List (String × Location)).map
        Prod.fst).Nodup) ∧
    (("A", (⟨"1", "2"⟩ : Location)) ∈
      ([("A", ⟨"1", "2"⟩), ("B", ⟨"3", "4"⟩)] : List (String × Location))) ∧
    dictGet (get_weather_data
        (fun url => if url = forecast_url ⟨"3", "4"⟩ "K" then none else some JVal.null)
        [("A", ⟨"1", "2"⟩), ("B", ⟨"3", "4"⟩)] "K").current "A" = some JVal.null ∧
    dictGet (get_weather_data
        (fun url => if url = forecast_url ⟨"3", "4"⟩ "K" then none else some JVal.null)
        [("A", ⟨"1", "2"⟩), ("B", ⟨"3", "4"⟩)] "K").forecast "A" = some JVal.null ∧
    dictGet (get_weather_data
        (fun url => if url = forecast_url ⟨"3", "4"⟩ "K" then none else some JVal.null)
        [("A", ⟨"1", "2"⟩), ("B", ⟨"3", "4"⟩)] "K").current "B" = some JVal.null ∧
    dictGet (get_weather_data
        (fun url => if url = forecast_url ⟨"3", "4"⟩ "K" then none else some JVal.null)
        [("A", ⟨"1", "2"⟩), ("B", ⟨"3", "4"⟩)] "K").forecast "B" = none ∧
    dictGet (get_weather_data
        (fun url => if url = forecast_url ⟨"3", "4"⟩ "K" then none else some JVal.null)
        [("A", ⟨"1", "2"⟩), ("B", ⟨"3", "4"⟩)] "K").forecast "C" = none := by
  have hnd : ((([("A", ⟨"1", "2"⟩), ("B", ⟨"3", "4"⟩)] :
      List (String × Location)).map Prod.fst).Nodup) := by decide
  have h := c1_amended
    (fun url => if url = forecast_url ⟨"3", "4"⟩ "K" then none else some JVal.null)
    [("A", ⟨"1", "2"⟩), ("B", ⟨"3", "4"⟩)] "K" hnd
  have hA := h.1 "A" ⟨"1", "2"⟩ (by simp)
  have hB := h.1 "B" ⟨"3", "4"⟩ (by simp)
  have hC := h.2 "C" (by decide)
  refine ⟨hnd, by simp, ?_, ?_, ?_, ?_, hC.2⟩
  · rw [hA.1]
    rfl
  · rw [hA.2]
    rfl
  · rw [hB.1]
    rfl
  · rw [hB.2]
    rfl

/-! ## Claim C6 — load-job failure handling in the Table Writer -/

/-- The outcome of `upload_df_to_bigquery` is exactly the outcome of the load job. -/
theorem upload_result (env : Env) (df : DataFrame) (p d t : String) :
    (upload_df_to_bigquery env df p d t).2
      = match env.loadJob (p ++ "." ++ d ++ "." ++ t) with
        | .ok _ => .ok ()
        | .error e => .error e := by
  simp only [upload_df_to_bigquery]
  cases env.loadJob (p ++ "." ++ d ++ "." ++ t) <;> simp

/-- CLAIM C6: if the load job for the destination fails with error `e`,
`upload_df_to_bigquery` logs the column types of the frame, the destination table
id and the job configuration (and the error itself) and re-raises the same
`e`; if the load job succeeds, the call returns normally. -/
theorem c6_upload_failure (env : Env) (dataframe : DataFrame)
    (project_id dataset_id table_name : String) :
    (∀ e, env.loadJob (project_id ++ "." ++ dataset_id ++ "." ++ table_name)
        = .error e →
      (upload_df_to_bigquery env dataframe project_id dataset_id table_name).2
          = .error e ∧
      LogEntry.errColumnTypes (dfCols dataframe)
          ∈ (upload_df_to_bigquery env dataframe project_id dataset_id table_name).1 ∧
      LogEntry.errTableId (project_id ++ "." ++ dataset_id ++ "." ++ table_name)
          ∈ (upload_df_to_bigquery env dataframe project_id dataset_id table_name).1 ∧
      LogEntry.errJobConfig the_job_config
          ∈ (upload_df_to_bigquery env dataframe project_id dataset_id table_name).1 ∧
      LogEntry.errMessage e
          ∈ (upload_df_to_bigquery env dataframe project_id dataset_id table_name).1) ∧
    (env.loadJob (project_id ++ "." ++ dataset_id ++ "." ++ table_name) = .ok () →
      (upload_df_to_bigquery env dataframe project_id dataset_id table_name).2
        = .ok ()) := by
  constructor
  · intro e h
    refine ⟨?_, ?_, ?_, ?_, ?_⟩ <;>
      simp [upload_df_to_bigquery, h, List.mem_append]
  · intro h
    simp only [upload_df_to_bigquery, h]

/-- Witness for `c6_upload_failure`: a failing load job propagates its error
`"quota exceeded"` with the diagnostics logged, a succeeding one returns
normally. -/
theorem c6_upload_failure_witness :
    ((⟨fun _ => none, true, fun _ => Except.error "quota exceeded"⟩ : Env).loadJob
        ("p" ++ "." ++ "d" ++ "." ++ "t") = .error "quota exceeded") ∧
    (upload_df_to_bigquery ⟨fun _ => none, true, fun _ => Except.error "quota exceeded"⟩
        [[("c", JVal.i 1)]] "p" "d" "t").2 = .error "quota exceeded" ∧
    LogEntry.errColumnTypes (dfCols [[("c", JVal.i 1)]])
        ∈ (upload_df_to_bigquery ⟨fun _ => none, true, fun _ => Except.error "quota exceeded"⟩
            [[("c", JVal.i 1)]] "p" "d" "t").1 ∧
    (upload_df_to_bigquery ⟨fun _ => none, true, fun _ => Except.ok ()⟩
        [[("c", JVal.i 1)]] "p" "d" "t").2 = .ok () := by
  have hfail := (c6_upload_failure
    ⟨fun _ => none, true, fun _ => Except.error "quota exceeded"⟩
    [[("c", JVal.i 1)]] "p" "d" "t").1 "quota exceeded" rfl
  have hok := (c6_upload_failure ⟨fun _ => none, true, fun _ => Except.ok ()⟩
    [[("c", JVal.i 1)]] "p" "d" "t").2 rfl
  exact ⟨rfl, hfail.1, hfail.2.1, hok⟩

/-! ## Claim C9 — the inbound payload does not influence the run -/

/-- CLAIM C9: two request payloads that both parse successfully lead to
identical runs of `main`: the same event trace (fetches, writes) and the
same outcome, `"200, Success"` on completion in both. -/
theorem c9_payload_non_interference (env : Env) (settings : Settings)
    (locations : List (String × Location)) (r1 r2 : Request) (b1 b2 : JVal)
    (h1 : request_body_of r1 = some b1) (h2 : request_body_of r2 = some b2) :
    main_run env settings locations r1 = main_run env settings locations r2 := by
  rw [main_run, main_run, h1, h2]

/-- Witness for `c9_payload_non_interference`: a structured body and a raw
JSON string produce the same run. -/
theorem c9_payload_non_interference_witness :
    request_body_of (Request.structured JVal.null) = some JVal.null ∧
    request_body_of (Request.rawJson (some (JVal.obj []))) = some (JVal.obj []) ∧
    main_run ⟨fun _ => none, true, fun _ => Except.ok ()⟩ ⟨"k", "p", "d"⟩ []
        (Request.structured JVal.null)
      = main_run ⟨fun _ => none, true, fun _ => Except.ok ()⟩ ⟨"k", "p", "d"⟩ []
        (Request.rawJson (some (JVal.obj []))) :=
  ⟨rfl, rfl, c9_payload_non_interference _ _ _ _ _ _ _ rfl rfl⟩

/-! ## Claim C5 — ordering of the orchestrator steps -/

/-- CLAIM C5: in every run of `main` the event trace decomposes into fetch
events followed by write events (all fetching completes before any
transformation result is written); the write block is empty, exactly the
`current_weather` write, or the `current_weather` write followed by the
`forecasted_weather` write — and the two-write case occurs only when the
current-table load job completed without raising, so the forecast write is
never attempted after a failed current write. -/
theorem c5_main_order (env : Env) (settings : Settings)
    (locations : List (String × Location)) (request : Request) :
    ∃ fe we, (main_run env settings locations request).1 = fe ++ we ∧
      (∀ e ∈ fe, ∃ name, e = Event.fetch name) ∧
      (we = [] ∨ we = [Event.write "current_weather"] ∨
        (we = [Event.write "current_weather", Event.write "forecasted_weather"] ∧
          env.loadJob (settings.GCP_PROJECT_ID ++ "." ++ settings.DATASET_ID
            ++ "." ++ "current_weather") = .ok ())) := by
  have hfetch : ∀ e ∈ locations.map (fun nl => Event.fetch nl.1),
      ∃ name, e = Event.fetch name := by
    intro e he
    obtain ⟨nl, _, h⟩ := List.mem_map.mp he
    exact ⟨nl.1, h.symm⟩
  cases hreq : request_body_of request with
  | none =>
    refine ⟨[], [], ?_, by simp, Or.inl rfl⟩
    simp [main_run, hreq]
  | some body =>
    cases hcur : concat_current
        (get_weather_data env.api locations settings.API_KEY).current with
    | none =>
      refine ⟨locations.map (fun nl => Event.fetch nl.1), [], ?_, hfetch,
        Or.inl rfl⟩
      simp [main_run, hreq, hcur]
    | some current_weather =>
      cases hfc : concat_forecast
          (get_weather_data env.api locations settings.API_KEY).forecast with
      | none =>
        refine ⟨locations.map (fun nl => Event.fetch nl.1), [], ?_, hfetch,
          Or.inl rfl⟩
        simp [main_run, hreq, hcur, hfc]
      | some forecast_weather =>
        cases hl : env.loadJob (settings.GCP_PROJECT_ID ++ "." ++ settings.DATASET_ID
            ++ "." ++ "current_weather") with
        | error e =>
          refine ⟨locations.map (fun nl => Event.fetch nl.1),
            [Event.write "current_weather"], ?_, hfetch, Or.inr (Or.inl rfl)⟩
          simp [main_run, hreq, hcur, hfc, upload_result, hl]
        | ok u =>
          cases u
          refine ⟨locations.map (fun nl => Event.fetch nl.1),
            [Event.write "current_weather", Event.write "forecasted_weather"],
            ?_, hfetch, Or.inr (Or.inr ⟨rfl, rfl⟩)⟩
          simp [main_run, hreq, hcur, hfc, upload_result, hl]

/-! ## Claims C3 and C10 — the Forecast Transformer -/

/-- One iteration of the forecast per-interval loop, named for the proofs. -/
def forecastStep (acc : DataFrame × List JVal) (forecast_item : JVal) :
    Option (DataFrame × List JVal) := do
  let f ← asObjFields forecast_item
  let f2 ← weather_item_first f
  let forecast_item_df := convert_weather_api_dict_to_dataframe f2
  pure (acc.1 ++ forecast_item_df, acc.2 ++ [JVal.obj f2])

theorem forecast_loop_eq_foldlM (forecasts_dict : List JVal) :
    forecast_loop forecasts_dict
      = List.foldlM forecastStep ([], []) forecasts_dict := rfl

/-- On an interval with a nonempty `weather` list the in-place replacement
succeeds and equals its total description `mutateItem`. -/
theorem weather_item_first_eq (it : Row) {w : JVal} {ws : List JVal}
    (hwit : dictGet it "weather" = some (JVal.arr (w :: ws))) :
    weather_item_first it = some (mutateItem it) := by
  rw [weather_item_first, mutateItem, hwit]

/-- The forecast loop over well-formed intervals: one flattened row and one
mutated interval per input entry, in input order. -/
theorem forecast_fold_eq (items : List Row) :
    (∀ it ∈ items, ∃ w ws, dictGet it "weather" = some (JVal.arr (w :: ws))) →
    ∀ acc : DataFrame × List JVal,
      List.foldlM forecastStep acc (items.map JVal.obj)
        = some (acc.1 ++ items.map (fun it => extracted_data_loop (mutateItem it)),
                acc.2 ++ items.map (fun it => JVal.obj (mutateItem it))) := by
  induction items with
  | nil =>
    intro _ acc
    simp
  | cons it rest ih =>
    intro hw acc
    obtain ⟨w, ws, hwit⟩ := hw it (List.mem_cons_self it rest)
    rw [List.map_cons, List.foldlM_cons]
    have hstep : forecastStep acc (JVal.obj it)
        = some (acc.1 ++ [extracted_data_loop (mutateItem it)],
                acc.2 ++ [JVal.obj (mutateItem it)]) := by
      simp [forecastStep, asObjFields, weather_item_first_eq it hwit,
        convert_weather_api_dict_to_dataframe]
    rw [hstep]
    show List.foldlM forecastStep _ (rest.map JVal.obj) = _
    rw [ih (fun x hx => hw x (List.mem_cons_of_mem _ hx)) _]
    simp

theorem forecast_loop_result (items : List Row)
    (hw : ∀ it ∈ items, ∃ w ws, dictGet it "weather" = some (JVal.arr (w :: ws))) :
    forecast_loop (items.map JVal.obj)
      = some (items.map (fun it => extracted_data_loop (mutateItem it)),
              items.map (fun it => JVal.obj (mutateItem it))) := by
  rw [forecast_loop_eq_foldlM, forecast_fold_eq items hw ([], [])]
  simp

/-- Suffixing only renames columns; the cell values of a row are unchanged. -/
theorem suffixOverlap_snd (lcols rcols : List String) (sfx : String) (r : Row) :
    (suffixOverlap lcols rcols sfx r).map Prod.snd = r.map Prod.snd := by
  rw [suffixOverlap, List.map_map]
  apply List.map_congr_left
  intro kv _
  show (if lcols.contains kv.1 && rcols.contains kv.1
      then (kv.1 ++ sfx, kv.2) else kv).2 = kv.2
  split <;> rfl

theorem foldl_append_map {α β : Type _} (f : α → β) :
    ∀ (l : List α) (acc : List β),
      l.foldl (fun a x => a ++ [f x]) acc = acc ++ l.map f := by
  intro l
  induction l with
  | nil =>
    intro acc
    simp
  | cons x xs ih =>
    intro acc
    rw [List.foldl_cons, ih]
    simp

/-- A cross merge against a one-row frame appends that single row of (suffixed)
columns to every (suffixed) left row. -/
theorem merge_cross_single (left : DataFrame) (r0 : Row) :
    merge_cross left [r0]
      = left.map (fun lr =>
          suffixOverlap (dfCols left) (dfCols [r0]) "_x" lr
            ++ suffixOverlap (dfCols left) (dfCols [r0]) "_y" r0) := by
  simp only [merge_cross, List.map_cons, List.map_nil]
  rw [foldl_append_map (fun lr =>
    suffixOverlap (dfCols left) (dfCols [r0]) "_x" lr
      ++ suffixOverlap (dfCols left) (dfCols [r0]) "_y" r0) left []]
  simp

/-- Full evaluation of `transform_forecasted_weather_data` on a well-formed
forecast record: the frame is the cross merge of the flattened mutated
intervals with the flattened city row, and the post-state of the argument
carries the mutated interval list. -/
theorem transform_forecasted_eval (data_dict city_fields : Row) (items : List Row)
    (hc : dictGet data_dict "city" = some (JVal.obj city_fields))
    (hl : dictGet data_dict "list" = some (JVal.arr (items.map JVal.obj)))
    (hw : ∀ it ∈ items, ∃ w ws, dictGet it "weather" = some (JVal.arr (w :: ws))) :
    transform_forecasted_weather_data data_dict
      = some (merge_cross (items.map (fun it => extracted_data_loop (mutateItem it)))
                [extracted_data_loop city_fields],
              dictSet data_dict "list"
                (JVal.arr (items.map (fun it => JVal.obj (mutateItem it))))) := by
  rw [transform_forecasted_weather_data]
  rw [hc, hl]
  simp only [Option.bind_eq_bind, Option.some_bind, asObjFields, asArrItems]
  rw [forecast_loop_result items hw]
  simp only [Option.some_bind, convert_weather_api_dict_to_dataframe]
  rfl

/-- CLAIM C3: for a forecast record with a `city` mapping and a `list` of N
well-formed interval mappings (each with a nonempty `weather` list), the
transformer returns a table of exactly N rows in input order; each row is the
flattened cells of the interval followed by the flattened city cells, and the
city-derived cell block is one and the same for all N rows. (Cell values are
compared; pandas renames a column that occurs on both sides of the merge with
the `_x`/`_y` suffixes, which does not change the cells.) -/
theorem c3_forecast_rows (data_dict city_fields : Row) (items : List Row)
    (hc : dictGet data_dict "city" = some (JVal.obj city_fields))
    (hl : dictGet data_dict "list" = some (JVal.arr (items.map JVal.obj)))
    (hw : ∀ it ∈ items, ∃ w ws, dictGet it "weather" = some (JVal.arr (w :: ws))) :
    ∃ df post, transform_forecasted_weather_data data_dict = some (df, post) ∧
      df.length = items.length ∧
      ∃ (cityPart : Row) (itemParts : List Row),
        cityPart.map Prod.snd = (extracted_data_loop city_fields).map Prod.snd ∧
        df = itemParts.map (fun p => p ++ cityPart) ∧
        List.Forall₂ (fun (p it : Row) =>
            p.map Prod.snd = (extracted_data_loop (mutateItem it)).map Prod.snd)
          itemParts items := by
  refine ⟨_, _, transform_forecasted_eval data_dict city_fields items hc hl hw,
    ?_, ?_⟩
  · rw [merge_cross_single]
    simp
  · refine ⟨suffixOverlap
        (dfCols (items.map (fun it => extracted_data_loop (mutateItem it))))
        (dfCols [extracted_data_loop city_fields]) "_y"
        (extracted_data_loop city_fields),
      items.map (fun it => suffixOverlap
        (dfCols (items.map (fun it => extracted_data_loop (mutateItem it))))
        (dfCols [extracted_data_loop city_fields]) "_x"
        (extracted_data_loop (mutateItem it))), ?_, ?_, ?_⟩
    · exact suffixOverlap_snd _ _ _ _
    · rw [merge_cross_single, List.map_map, List.map_map]
      rfl
    · have haux : ∀ its : List Row,
          List.Forall₂ (fun (p it : Row) =>
              p.map Prod.snd = (extracted_data_loop (mutateItem it)).map Prod.snd)
            (its.map (fun it => suffixOverlap
              (dfCols (items.map (fun it => extracted_data_loop (mutateItem it))))
              (dfCols [extracted_data_loop city_fields]) "_x"
              (extracted_data_loop (mutateItem it)))) its := by
        intro its
        induction its with
        | nil => exact List.Forall₂.nil
        | cons x xs ih => exact List.Forall₂.cons (suffixOverlap_snd _ _ _ _) ih
      exact haux items

/-- Witness for `c3_forecast_rows`: a city with one field and two intervals
produce a two-row table. -/
theorem c3_forecast_rows_witness :
    ∃ df post,
      transform_forecasted_weather_data
        [("city", JVal.obj [("name", JVal.s "Athens")]),
         ("list", JVal.arr
           [JVal.obj [("dt", JVal.i 1),
              ("weather", JVal.arr [JVal.obj [("id", JVal.i 800)]])],
            JVal.obj [("dt", JVal.i 2),
              ("weather", JVal.arr [JVal.obj [("id", JVal.i 500)]])]])]
        = some (df, post) ∧ df.length = 2 := by
  have hw : ∀ it ∈ ([[("dt", JVal.i 1),
        ("weather", JVal.arr [JVal.obj [("id", JVal.i 800)]])],
      [("dt", JVal.i 2),
        ("weather", JVal.arr [JVal.obj [("id", JVal.i 500)]])]] : List Row),
      ∃ w ws, dictGet it "weather" = some (JVal.arr (w :: ws)) := by
    intro it hit
    simp only [List.mem_cons, List.not_mem_nil, or_false] at hit
    rcases hit with h | h
    · subst h
      exact ⟨JVal.obj [("id", JVal.i 800)], [], rfl⟩
    · subst h
      exact ⟨JVal.obj [("id", JVal.i 500)], [], rfl⟩
  obtain ⟨df, post, heq, hlen, -⟩ := c3_forecast_rows
    [("city", JVal.obj [("name", JVal.s "Athens")]),
     ("list", JVal.arr
       [JVal.obj [("dt", JVal.i 1),
          ("weather", JVal.arr [JVal.obj [("id", JVal.i 800)]])],
        JVal.obj [("dt", JVal.i 2),
          ("weather", JVal.arr [JVal.obj [("id", JVal.i 500)]])]])]
    [("name", JVal.s "Athens")]
    [[("dt", JVal.i 1), ("weather", JVal.arr [JVal.obj [("id", JVal.i 800)]])],
     [("dt", JVal.i 2), ("weather", JVal.arr [JVal.obj [("id", JVal.i 500)]])]]
    rfl rfl hw
  exact ⟨df, post, heq, hlen⟩

/-- CLAIM C10: `transform_forecasted_weather_data` mutates its argument: in
the post-state of the record each interval of `list` has its `weather` entry
overwritten in place by the first element of its original list, while every
other interval field and every other record field (including `city`) is
unchanged. -/
theorem c10_forecast_mutation (data_dict city_fields : Row) (items : List Row)
    (hc : dictGet data_dict "city" = some (JVal.obj city_fields))
    (hl : dictGet data_dict "list" = some (JVal.arr (items.map JVal.obj)))
    (hw : ∀ it ∈ items, ∃ w ws, dictGet it "weather" = some (JVal.arr (w :: ws))) :
    (∃ df, transform_forecasted_weather_data data_dict
        = some (df, dictSet data_dict "list"
            (JVal.arr (items.map (fun it => JVal.obj (mutateItem it)))))) ∧
    (∀ it ∈ items, ∀ w ws, dictGet it "weather" = some (JVal.arr (w :: ws)) →
      dictGet (mutateItem it) "weather" = some w ∧
      ∀ k, k ≠ "weather" → dictGet (mutateItem it) k = dictGet it k) ∧
    dictGet (dictSet data_dict "list"
        (JVal.arr (items.map (fun it => JVal.obj (mutateItem it))))) "list"
      = some (JVal.arr (items.map (fun it => JVal.obj (mutateItem it)))) ∧
    (∀ k, k ≠ "list" →
      dictGet (dictSet data_dict "list"
          (JVal.arr (items.map (fun it => JVal.obj (mutateItem it))))) k
        = dictGet data_dict k) := by
  refine ⟨⟨_, transform_forecasted_eval data_dict city_fields items hc hl hw⟩,
    ?_, dictGet_dictSet_self _ _ _, fun k hk => dictGet_dictSet_ne _ _ _ _ hk⟩
  intro it _ w ws hwit
  rw [mutateItem, hwit]
  exact ⟨dictGet_dictSet_self _ _ _, fun k hk => dictGet_dictSet_ne _ _ _ _ hk⟩

/-- Witness for `c10_forecast_mutation` on a one-interval record: the
interval of the post-state has `weather` replaced by the first condition
object, while its `dt` field and the `city` field of the record are
untouched. -/
theorem c10_forecast_mutation_witness :
    (∃ df, transform_forecasted_weather_data
        [("city", JVal.obj [("name", JVal.s "A")]),
         ("list", JVal.arr [JVal.obj
           [("weather", JVal.arr [JVal.obj [("id", JVal.i 800)]]), ("dt", JVal.i 1)]])]
      = some (df, dictSet
          [("city", JVal.obj [("name", JVal.s "A")]),
           ("list", JVal.arr [JVal.obj
             [("weather", JVal.arr [JVal.obj [("id", JVal.i 800)]]), ("dt", JVal.i 1)]])]
          "list"
          (JVal.arr ([[("weather", JVal.arr [JVal.obj [("id", JVal.i 800)]]),
            ("dt", JVal.i 1)]].map (fun it => JVal.obj (mutateItem it)))))) ∧
    dictGet (mutateItem
        [("weather", JVal.arr [JVal.obj [("id", JVal.i 800)]]), ("dt", JVal.i 1)])
      "weather" = some (JVal.obj [("id", JVal.i 800)]) ∧
    dictGet (mutateItem
        [("weather", JVal.arr [JVal.obj [("id", JVal.i 800)]]), ("dt", JVal.i 1)])
      "dt" = dictGet
        [("weather", JVal.arr [JVal.obj [("id", JVal.i 800)]]), ("dt", JVal.i 1)] "dt" := by
  have h := c10_forecast_mutation
    [("city", JVal.obj [("name", JVal.s "A")]),
     ("list", JVal.arr [JVal.obj
       [("weather", JVal.arr [JVal.obj [("id", JVal.i 800)]]), ("dt", JVal.i 1)]])]
    [("name", JVal.s "A")]
    [[("weather", JVal.arr [JVal.obj [("id", JVal.i 800)]]), ("dt", JVal.i 1)]]
    rfl rfl
    (by
      intro it hit
      simp only [List.mem_cons, List.not_mem_nil, or_false] at hit
      subst hit
      exact ⟨JVal.obj [("id", JVal.i 800)], [], rfl⟩)
  have hmut := h.2.1
    [("weather", JVal.arr [JVal.obj [("id", JVal.i 800)]]), ("dt", JVal.i 1)]
    (by simp) (JVal.obj [("id", JVal.i 800)]) [] rfl
  exact ⟨h.1, hmut.1, hmut.2 "dt" (by decide)⟩
